import Mathlib

/-!
Verification of the threaded serial-port wrapper of `LFLib.py` (the `serPort`
function and the `sPort` protocol class with its nested `Buffer`).

Bytes are modelled as `Nat` (values 0..255), byte strings as `List Nat`,
Python text strings as lists of Unicode code points (`List Nat`).  Python's
strict UTF-8 `bytes.decode()` / `str.encode()` are modelled by `utf8Decode` /
`utf8Encode`.  The shared class-level state `sPort.Buffer` becomes the
structure `Buffer`; each method becomes a pure function from the old buffer
(plus the inputs the method reads from the outside world) to the new buffer
and the method's observable effects.  Fallible serial I/O is modelled by
explicit `Bool` failure flags, and the `try/except` structure of the source
is reflected in how those flags are consumed.
-/

set_option autoImplicit false

namespace LFLib

/-- The line-feed byte, `ord("\n")`. -/
def LF : Nat := 10

/-- Model of `sPort.Buffer`: the class-level shared state of `sPort`
(`port`, `content`, `size`, `disconnected`, `terminator`).  The serial port
handle is modelled by the index of the device it is bound to.  The
`terminator` field stores the constructor argument `terminatorV` as a list of
code points (default `"\n"` = `[10]`). -/
structure Buffer where
  port : Option Nat
  content : List Nat
  size : Nat
  disconnected : Bool
  terminator : List Nat
deriving DecidableEq

/-- Result of `sPort.readB`: either the Python string `"not enough data"`
or the bytes removed from the front of the buffer. -/
inductive ReadBResult where
  | notEnoughData : ReadBResult
  | data : List Nat → ReadBResult
deriving DecidableEq

/-- Result of `sPort.readL`: the Python string `"not enough data"`, the
sentinel `"Read data isn't a string"` produced on `UnicodeDecodeError`, or
the decoded line (a list of code points, without the trailing newline). -/
inductive ReadLResult where
  | notEnoughData : ReadLResult
  | notAString : ReadLResult
  | line : List Nat → ReadLResult
deriving DecidableEq

/-- Strict UTF-8 decoding of a byte string into code points, as performed by
Python's `bytes.decode()`: rejects stray continuation bytes, overlong forms,
surrogates and code points above U+10FFFF.  `none` models
`UnicodeDecodeError`. -/
def utf8Decode : List Nat → Option (List Nat)
  | [] => some []
  | b :: rest =>
    if b < 128 then
      (utf8Decode rest).map (fun cps => b :: cps)
    else if b < 194 then
      none
    else if b < 224 then
      match rest with
      | b1 :: rest1 =>
        if 128 ≤ b1 ∧ b1 < 192 then
          (utf8Decode rest1).map (fun cps => ((b - 192) * 64 + (b1 - 128)) :: cps)
        else none
      | [] => none
    else if b < 240 then
      match rest with
      | b1 :: b2 :: rest2 =>
        if (128 ≤ b1 ∧ b1 < 192) ∧ (128 ≤ b2 ∧ b2 < 192) then
          let cp := (b - 224) * 4096 + (b1 - 128) * 64 + (b2 - 128)
          if 2048 ≤ cp ∧ ¬(55296 ≤ cp ∧ cp < 57344) then
            (utf8Decode rest2).map (fun cps => cp :: cps)
          else none
        else none
      | _ => none
    else if b < 245 then
      match rest with
      | b1 :: b2 :: b3 :: rest3 =>
        if (128 ≤ b1 ∧ b1 < 192) ∧ ((128 ≤ b2 ∧ b2 < 192) ∧ (128 ≤ b3 ∧ b3 < 192)) then
          let cp := (b - 240) * 262144 + (b1 - 128) * 4096 + (b2 - 128) * 64 + (b3 - 128)
          if 65536 ≤ cp ∧ cp < 1114112 then
            (utf8Decode rest3).map (fun cps => cp :: cps)
          else none
        else none
      | _ => none
    else none

/-- UTF-8 encoding of one code point, as performed by Python's
`str.encode()`. -/
def utf8EncodeChar (c : Nat) : List Nat :=
  if c < 128 then [c]
  else if c < 2048 then [192 + c / 64, 128 + c % 64]
  else if c < 65536 then [224 + c / 4096, 128 + (c / 64) % 64, 128 + c % 64]
  else [240 + c / 262144, 128 + (c / 4096) % 64, 128 + (c / 64) % 64, 128 + c % 64]

/-- UTF-8 encoding of a text string (list of code points) into bytes. -/
def utf8Encode (s : List Nat) : List Nat := (s.map utf8EncodeChar).flatten

/-- Model of `sPort.readStoreBuffer(data)`: if the chunk fits
(`len(content) + len(data) <= size`) it is appended whole, otherwise it is
discarded whole; `handleData()` is invoked unconditionally afterwards.  The
returned `Bool` records that the registered callback was invoked. -/
def readStoreBuffer (buf : Buffer) (data : List Nat) : Buffer × Bool :=
  if buf.content.length + data.length ≤ buf.size then
    ({ buf with content := buf.content ++ data }, true)
  else
    (buf, true)

/-- Index of the first occurrence of byte `t` in a byte string.  With
`t = LF` this is the forward scan `for newLineIndex in range(numBytes)` of
`sPort.readL`. -/
def findTermIdx (t : Nat) : List Nat → Option Nat
  | [] => none
  | b :: rest =>
    if b = t then some 0 else (findTermIdx t rest).map (fun i => i + 1)

/-- Index of the last line-feed byte in a byte string, as found by the
backward scan `for newLineIndex in range(numBytes-1, -1, -1)` in
`sPort.clearBuffer`. -/
def findLastLFIdx : List Nat → Option Nat
  | [] => none
  | b :: rest =>
    match findLastLFIdx rest with
    | some i => some (i + 1)
    | none => if b = LF then some 0 else none

/-- Model of `sPort.clearBuffer(clearLine)`.  With `clearLine = false` the
buffer content is emptied (`bytes(0)`); with `clearLine = true` the content
is truncated to the bytes strictly after the last line-feed byte, and left
unchanged when no line-feed is present.  The GUI `flush_events` /
`update_idletasks` side effects have no bearing on the buffer and are not
modelled. -/
def clearBuffer (buf : Buffer) (clearLine : Bool) : Buffer :=
  if clearLine then
    match findLastLFIdx buf.content with
    | some i => { buf with content := buf.content.drop (i + 1) }
    | none => buf
  else
    { buf with content := [] }

/-- Model of `sPort.readB(bytes)`: with fewer than `bytes` bytes buffered it
returns the `"not enough data"` sentinel and leaves the buffer untouched;
otherwise it returns `content[0:bytes]` and keeps `content[bytes:]`. -/
def readB (buf : Buffer) (bytes : Nat) : ReadBResult × Buffer :=
  if buf.content.length < bytes then
    (ReadBResult.notEnoughData, buf)
  else
    (ReadBResult.data (buf.content.take bytes),
     { buf with content := buf.content.drop bytes })

/-- Model of `sPort.readL()`: scans the buffer for the first line-feed byte
(the scan compares each byte with `"\n"`, not with the stored `terminator`).
If none is found, returns the `"not enough data"` sentinel with the buffer
untouched.  Otherwise it decodes `content[0:newLineIndex]` (yielding the
`"Read data isn't a string"` sentinel on `UnicodeDecodeError`) and keeps
`content[newLineIndex+1:]`. -/
def readL (buf : Buffer) : ReadLResult × Buffer :=
  match findTermIdx LF buf.content with
  | none => (ReadLResult.notEnoughData, buf)
  | some i =>
    let r := match utf8Decode (buf.content.take i) with
      | some cps => ReadLResult.line cps
      | none => ReadLResult.notAString
    (r, { buf with content := buf.content.drop (i + 1) })

/-- Observable outcome of `sPort.write` / `sPort.writeL`: the bytes handed
to the transport's write primitive (`none` when it was not invoked), whether
a warning was printed, whether an exception escaped to the caller, and the
buffer state afterwards. -/
structure WriteOutcome where
  dataWritten : Option (List Nat)
  warned : Bool
  raised : Bool
  buf : Buffer
deriving DecidableEq

/-- Model of `sPort.write(data)`.  `ioFails` models the transport's
`port.write` raising `OSError`; the source catches it and prints a warning,
so no exception ever escapes. -/
def write (buf : Buffer) (data : List Nat) (ioFails : Bool) : WriteOutcome :=
  if buf.disconnected then
    { dataWritten := none, warned := true, raised := false, buf := buf }
  else if ioFails then
    { dataWritten := some data, warned := true, raised := false, buf := buf }
  else
    { dataWritten := some data, warned := false, raised := false, buf := buf }

/-- Model of `sPort.writeL(s)`: behaves like `write` applied to
`(s + "\n").encode()` — note the appended line separator is the literal
`"\n"`, not the stored `terminator`. -/
def writeL (buf : Buffer) (s : List Nat) (ioFails : Bool) : WriteOutcome :=
  write buf (utf8Encode (s ++ [LF])) ioFails

/-- A serial device visible to `serial.tools.list_ports.comports()`:
whether `serial.Serial(...)` on it succeeds, and the one-line responses it
gives after the init command and after the probe question. -/
structure Device where
  openOk : Bool
  initResponse : List Nat
  probeResponse : List Nat
deriving DecidableEq

/-- One observable transport interaction of `serPort`, tagged with the
index of the device acted on. -/
inductive Action where
  | openDev : Nat → Nat → Action
  | writeDev : Nat → List Nat → Action
  | readlineDev : Nat → Action
deriving DecidableEq

/-- Device index an action acts on. -/
def Action.idx : Action → Nat
  | .openDev i _ => i
  | .writeDev i _ => i
  | .readlineDev i => i

/-- The transport interactions performed on one candidate inside the probe
loop of `serPort`: `serial.Serial(name, timeout=2)`, then the optional init
`command` write plus discarded `readline()`, then the optional probe
`question` write plus `readline()`. -/
def candActs (i : Nat) (command question : Option (List Nat)) : List Action :=
  Action.openDev i 2 ::
    ((match command with
      | some c => [Action.writeDev i c, Action.readlineDev i]
      | none => []) ++
     (match question with
      | some q => [Action.writeDev i q, Action.readlineDev i]
      | none => []))

/-- Pair each device of a list with its index, starting from `n`. -/
def enumFromIdx : Nat → List Device → List (Nat × Device)
  | _, [] => []
  | n, d :: rest => (n, d) :: enumFromIdx (n + 1) rest

/-- The `while not correctPort and portNum < len(ports)` loop of `serPort`,
run over the remaining `(index, device)` candidates.  An `open` failure
raises `SerialException` out of the loop (modelled `.error ()`); exhausting
the list leaves `correctPort` false and `serPort` raises `SerialDisconnect`
(also `.error ()`).  On success the result carries the selected device index
and the transport interactions performed so far.  `answer` is `None`able in
the source, and `ret == answer` with `answer = None` is always false, hence
the comparison `some d.probeResponse = answer`. -/
def probeCandidates (command question answer : Option (List Nat)) :
    List (Nat × Device) → Except Unit (Nat × List Action)
  | [] => Except.error ()
  | (i, d) :: rest =>
    if d.openOk = true then
      match question with
      | some _ =>
        if some d.probeResponse = answer then
          Except.ok (i, candActs i command question)
        else
          match probeCandidates command question answer rest with
          | Except.ok (j, acts) => Except.ok (j, candActs i command question ++ acts)
          | Except.error e => Except.error e
      | none => Except.ok (i, candActs i command question)
    else Except.error ()

/-- Model of the `name == "Auto"` branch of `serPort(name, command,
question, answer, final)`.  `devs` is the list returned by
`serial.tools.list_ports.comports()`.  With fewer than 2 entries, or when
the probe loop fails (no match, or a `SerialException` from an open), the
function raises `SerialDisconnect` — modelled `.error ()` — which the caller
sees as the "could not open the serial port" failure.  On success the
selected device index is returned together with the transport interactions,
ending with the optional `final` write and its discarded `readline()`. -/
def serPortAuto (devs : List Device) (command question answer final : Option (List Nat)) :
    Except Unit (Nat × List Action) :=
  if 1 < devs.length then
    match probeCandidates command question answer (enumFromIdx 1 (devs.drop 1)) with
    | Except.ok (i, acts) =>
      Except.ok (i, acts ++
        (match final with
         | some f => [Action.writeDev i f, Action.readlineDev i]
         | none => []))
    | Except.error e => Except.error e
  else Except.error ()

/-- Outcome of a call to `sPort.reopen` / `sPort.connection_lost` that
returns normally: the new shared buffer state, whether a fresh
`ReaderThread` was started, and whether the attempt was rescheduled via
`window.after(1, self.reopen)`. -/
structure ReopenOutcome where
  buf : Buffer
  readerStarted : Bool
  rescheduled : Bool
deriving DecidableEq

/-- Model of `sPort.reopen()`.  The `try` block enumerates the available
ports and, when more than one is listed, evaluates
`Serial("/dev/" + ports[1].name)`.  `Serial` is an unbound name in
`LFLib.py` — the module imports `serial` and writes `serial.Serial`
everywhere else — so this raises `NameError`, which the
`except serial.serialutil.SerialException` clause does not catch: the
exception propagates out of `reopen` (modelled `.error ()`), and the
rebind / clear-flag / reader-restart branch guarded by `newPort != None`
is unreachable.  With at most one port listed no exception is raised,
`newPort` stays `None`, and the attempt reschedules itself. -/
def reopen (ports : List Device) (buf : Buffer) : Except Unit ReopenOutcome :=
  if 1 < ports.length then
    Except.error ()
  else
    Except.ok { buf := buf, readerStarted := false, rescheduled := true }

/-- Model of `sPort.connection_lost(exc)`: it calls `self.reopen()`
synchronously and, when that returns normally, sets
`self.buffer.disconnected = True`; an exception raised inside `reopen`
propagates out of `connection_lost` before the assignment runs. -/
def connection_lost (ports : List Device) (buf : Buffer) : Except Unit ReopenOutcome :=
  match reopen ports buf with
  | Except.ok r => Except.ok { r with buf := { r.buf with disconnected := true } }
  | Except.error e => Except.error e

/-- Model of `sPort.disconnected()` (the spec's `isDisconnected()`). -/
def disconnected (buf : Buffer) : Bool := buf.disconnected

deriving instance DecidableEq for Except

/-- What claim C4 (following the specification text) requires of `readL`:
scan the buffer from the front for the first occurrence of the configured
terminator byte `t` and cut the line there.  Defined only to be compared
with `readL`, which hardcodes the line-feed byte instead. -/
def readLSpec (t : Nat) (buf : Buffer) : ReadLResult × Buffer :=
  match findTermIdx t buf.content with
  | none => (ReadLResult.notEnoughData, buf)
  | some i =>
    let r := match utf8Decode (buf.content.take i) with
      | some cps => ReadLResult.line cps
      | none => ReadLResult.notAString
    (r, { buf with content := buf.content.drop (i + 1) })

/-! ### Helper lemmas -/

/-- If `t` does not occur in `l`, the forward scan finds nothing. -/
theorem findTermIdx_eq_none (t : Nat) (l : List Nat) (h : t ∉ l) :
    findTermIdx t l = none := by
  induction l with
  | nil => rfl
  | cons b rest ih =>
    have hb : ¬(b = t) := fun e => h (by simp [e])
    have hr : t ∉ rest := fun m => h (List.mem_cons_of_mem _ m)
    simp [findTermIdx, hb, ih hr]

/-- The forward scan finds the first occurrence of `t`. -/
theorem findTermIdx_first (t : Nat) (pre rest : List Nat) (h : t ∉ pre) :
    findTermIdx t (pre ++ t :: rest) = some pre.length := by
  induction pre with
  | nil => simp [findTermIdx]
  | cons b p ih =>
    have hb : ¬(b = t) := fun e => h (by simp [e])
    have hp : t ∉ p := fun m => h (List.mem_cons_of_mem _ m)
    simp [findTermIdx, hb, ih hp]

/-- If `LF` does not occur in `l`, the backward scan finds nothing. -/
theorem findLastLFIdx_eq_none (l : List Nat) (h : LF ∉ l) :
    findLastLFIdx l = none := by
  induction l with
  | nil => rfl
  | cons b rest ih =>
    have hb : ¬(b = LF) := fun e => h (by simp [e])
    have hr : LF ∉ rest := fun m => h (List.mem_cons_of_mem _ m)
    simp [findLastLFIdx, hb, ih hr]

/-- The backward scan finds the last occurrence of `LF`. -/
theorem findLastLFIdx_last (pre rest : List Nat) (h : LF ∉ rest) :
    findLastLFIdx (pre ++ LF :: rest) = some pre.length := by
  induction pre with
  | nil => simp [findLastLFIdx, findLastLFIdx_eq_none rest h]
  | cons b p ih => simp [findLastLFIdx, ih]

/-- Dropping past the `pre.length`-th element of `pre ++ t :: rest` leaves
`rest`. -/
theorem drop_after_term (t : Nat) (pre rest : List Nat) :
    (pre ++ t :: rest).drop (pre.length + 1) = rest := by
  induction pre with
  | nil => simp
  | cons b p ih => simp [ih]

/-! ### Claim theorems -/

/-- Claim C1: for every received chunk, `readStoreBuffer` appends the whole
chunk when `len(content) + len(chunk) ≤ size` and discards it whole
otherwise (the buffer is unchanged, never partially appended), so a buffer
within capacity stays within capacity; in both cases the registered
`handleData` callback is invoked afterwards. -/
theorem readStoreBuffer_spec (buf : Buffer) (data : List Nat) :
    (readStoreBuffer buf data).1.content =
      (if buf.content.length + data.length ≤ buf.size then buf.content ++ data
       else buf.content) ∧
    (readStoreBuffer buf data).2 = true ∧
    (buf.content.length ≤ buf.size →
      (readStoreBuffer buf data).1.content.length ≤ buf.size) := by
  by_cases h : buf.content.length + data.length ≤ buf.size
  · refine ⟨by simp [readStoreBuffer, h], by simp [readStoreBuffer, h], ?_⟩
    intro _
    simp [readStoreBuffer, h]
  · exact ⟨by simp [readStoreBuffer, h], by simp [readStoreBuffer, h],
      fun hle => by simpa [readStoreBuffer, h] using hle⟩

/-- Witness for C1 on concrete inputs: a chunk that fits is appended whole
and the capacity bound holds afterwards; a chunk that does not fit is
discarded whole. -/
theorem readStoreBuffer_spec_witness :
    (readStoreBuffer ⟨none, [1, 2], 4, false, [10]⟩ [3, 4]).1.content.length ≤ 4 ∧
    (readStoreBuffer ⟨none, [1, 2], 4, false, [10]⟩ [3, 4, 5]).1.content.length ≤ 4 :=
  ⟨(readStoreBuffer_spec ⟨none, [1, 2], 4, false, [10]⟩ [3, 4]).2.2 (by decide),
   (readStoreBuffer_spec ⟨none, [1, 2], 4, false, [10]⟩ [3, 4, 5]).2.2 (by decide)⟩

/-- Claim C2: with fewer than `n` buffered bytes, `readB` returns the
`"not enough data"` sentinel and leaves the buffer unchanged, so an
immediately repeated call returns the sentinel again; with at least `n`
bytes it removes and returns exactly the first `n` bytes in FIFO order,
leaving the rest. -/
theorem readB_spec (buf : Buffer) (n : Nat) :
    (buf.content.length < n →
      readB buf n = (ReadBResult.notEnoughData, buf) ∧
      readB (readB buf n).2 n = (ReadBResult.notEnoughData, buf)) ∧
    (n ≤ buf.content.length →
      readB buf n =
        (ReadBResult.data (buf.content.take n),
         { buf with content := buf.content.drop n }) ∧
      buf.content.take n ++ (readB buf n).2.content = buf.content) := by
  by_cases h : buf.content.length < n
  · refine ⟨fun _ => ⟨by simp [readB, h], ?_⟩, fun hle => absurd hle (by omega)⟩
    simp [readB, h]
  · refine ⟨fun hlt => absurd hlt h, fun _ => ⟨by simp [readB, h], ?_⟩⟩
    simp [readB, h]

/-- Witness for C2 on concrete inputs: the sentinel case twice in a row on
a 2-byte buffer with `n = 3`, and the removal case with `n = 2` on a
3-byte buffer. -/
theorem readB_spec_witness :
    (readB ⟨none, [1, 2], 4096, false, [10]⟩ 3 =
       (ReadBResult.notEnoughData, ⟨none, [1, 2], 4096, false, [10]⟩) ∧
     readB (readB ⟨none, [1, 2], 4096, false, [10]⟩ 3).2 3 =
       (ReadBResult.notEnoughData, ⟨none, [1, 2], 4096, false, [10]⟩)) ∧
    (readB ⟨none, [1, 2, 3], 4096, false, [10]⟩ 2 =
       (ReadBResult.data [1, 2], ⟨none, [3], 4096, false, [10]⟩) ∧
     [1, 2, 3].take 2 ++ (readB ⟨none, [1, 2, 3], 4096, false, [10]⟩ 2).2.content =
       [1, 2, 3]) :=
  ⟨(readB_spec ⟨none, [1, 2], 4096, false, [10]⟩ 3).1 (by decide),
   (readB_spec ⟨none, [1, 2, 3], 4096, false, [10]⟩ 2).2 (by decide)⟩

/-- Claim C5: `clearBuffer` with `clearLine = false` empties the buffer;
with `clearLine = true` it keeps exactly the bytes strictly after the last
line-feed occurrence and leaves the buffer unchanged when no line-feed is
present. -/
theorem clearBuffer_spec (buf : Buffer) :
    (clearBuffer buf false).content = [] ∧
    (LF ∉ buf.content → clearBuffer buf true = buf) ∧
    (∀ pre rest, buf.content = pre ++ LF :: rest → LF ∉ rest →
      (clearBuffer buf true).content = rest) := by
  refine ⟨rfl, ?_, ?_⟩
  · intro h
    unfold clearBuffer
    rw [findLastLFIdx_eq_none buf.content h]
    simp
  · intro pre rest hc hrest
    unfold clearBuffer
    rw [hc, findLastLFIdx_last pre rest hrest]
    simp [drop_after_term]

/-- Witness for C5 on concrete inputs: the spec's own examples, buffer
`b"ab\ncd\nef"` keeps `b"ef"`, buffer `b"abc"` stays unchanged, and
`clearBuffer(False)` empties. -/
theorem clearBuffer_spec_witness :
    (clearBuffer ⟨none, [97, 98, 10, 99, 100, 10, 101, 102], 4096, false, [10]⟩
        true).content = [101, 102] ∧
    clearBuffer ⟨none, [97, 98, 99], 4096, false, [10]⟩ true =
      ⟨none, [97, 98, 99], 4096, false, [10]⟩ ∧
    (clearBuffer ⟨none, [97, 98, 99], 4096, false, [10]⟩ false).content = [] :=
  ⟨(clearBuffer_spec ⟨none, [97, 98, 10, 99, 100, 10, 101, 102], 4096, false,
      [10]⟩).2.2 [97, 98, 10, 99, 100] [101, 102] (by decide) (by decide),
   (clearBuffer_spec ⟨none, [97, 98, 99], 4096, false, [10]⟩).2.1 (by decide),
   (clearBuffer_spec ⟨none, [97, 98, 99], 4096, false, [10]⟩).1⟩

/-- Claim C10: every consumer-side operation — `readB`, `readL`, and
`clearBuffer` in both modes — leaves the buffer content a contiguous suffix
of its previous content: bytes are only removed from the front (or the
whole buffer cleared), never reordered, duplicated or inserted. -/
theorem consume_ops_suffix (buf : Buffer) (n : Nat) (clearLine : Bool) :
    (readB buf n).2.content <:+ buf.content ∧
    (readL buf).2.content <:+ buf.content ∧
    (clearBuffer buf clearLine).content <:+ buf.content := by
  refine ⟨?_, ?_, ?_⟩
  · unfold readB
    by_cases h : buf.content.length < n
    · simp [h]
    · simp [h, List.drop_suffix]
  · unfold readL
    cases h : findTermIdx LF buf.content with
    | none => simp
    | some i => simp [List.drop_suffix]
  · unfold clearBuffer
    cases clearLine with
    | false => simp
    | true =>
      cases h : findLastLFIdx buf.content with
      | none => simp
      | some i => simp [List.drop_suffix]

/-- With the first `LF` at position `pre.length`, `readL` consumes through
the terminator and classifies the prefix by UTF-8 decodability. -/
theorem readL_eq_of_split (buf : Buffer) (pre rest : List Nat)
    (hc : buf.content = pre ++ LF :: rest) (hpre : LF ∉ pre) :
    readL buf =
      ((match utf8Decode pre with
        | some cps => ReadLResult.line cps
        | none => ReadLResult.notAString),
       { buf with content := rest }) := by
  unfold readL
  rw [hc, findTermIdx_first LF pre rest hpre]
  simp [List.take_left, drop_after_term]

/-- Claim C3: for the default line-feed terminator, `readL` with no
line-feed buffered returns the `"not enough data"` sentinel and leaves the
buffer untouched; with a first line-feed after prefix `pre` it consumes
`pre` and the terminator, returning the decoded prefix, or the
`"Read data isn't a string"` sentinel — still consuming the bytes — when
decoding fails. -/
theorem readL_spec (buf : Buffer) :
    (LF ∉ buf.content → readL buf = (ReadLResult.notEnoughData, buf)) ∧
    (∀ pre rest, buf.content = pre ++ LF :: rest → LF ∉ pre →
      (readL buf).2 = { buf with content := rest } ∧
      (∀ cps, utf8Decode pre = some cps → (readL buf).1 = ReadLResult.line cps) ∧
      (utf8Decode pre = none → (readL buf).1 = ReadLResult.notAString)) := by
  constructor
  · intro h
    unfold readL
    rw [findTermIdx_eq_none LF buf.content h]
  · intro pre rest hc hpre
    rw [readL_eq_of_split buf pre rest hc hpre]
    refine ⟨rfl, ?_, ?_⟩
    · intro cps hdec
      simp [hdec]
    · intro hdec
      simp [hdec]

/-- Witness for C3 on concrete inputs: `readL` on `b"ab\ncd"` returns
`"ab"` and leaves `b"cd"`; on an undecodable prefix `b"\xff\n"` it returns
the sentinel and still consumes; on `b"cd"` it returns the
`"not enough data"` sentinel and leaves the buffer untouched. -/
theorem readL_spec_witness :
    ((readL ⟨none, [97, 98, 10, 99, 100], 4096, false, [10]⟩).2 =
       ⟨none, [99, 100], 4096, false, [10]⟩ ∧
     (readL ⟨none, [97, 98, 10, 99, 100], 4096, false, [10]⟩).1 =
       ReadLResult.line [97, 98]) ∧
    ((readL ⟨none, [255, 10], 4096, false, [10]⟩).2 =
       ⟨none, [], 4096, false, [10]⟩ ∧
     (readL ⟨none, [255, 10], 4096, false, [10]⟩).1 = ReadLResult.notAString) ∧
    readL ⟨none, [99, 100], 4096, false, [10]⟩ =
      (ReadLResult.notEnoughData, ⟨none, [99, 100], 4096, false, [10]⟩) := by
  have h1 := (readL_spec ⟨none, [97, 98, 10, 99, 100], 4096, false, [10]⟩).2
    [97, 98] [99, 100] (by decide) (by decide)
  have h2 := (readL_spec ⟨none, [255, 10], 4096, false, [10]⟩).2
    [255] [] (by decide) (by decide)
  have h3 := (readL_spec ⟨none, [99, 100], 4096, false, [10]⟩).1 (by decide)
  exact ⟨⟨h1.1, h1.2.1 [97, 98] (by decide)⟩, ⟨h2.1, h2.2.2 (by decide)⟩, h3⟩

/-- Counterexample to claim C4: a link constructed with terminator `"\r"`
(byte 13).  On buffer `b"a\rb\n"` the claim requires `readL` to cut at the
first `"\r"` — i.e. to agree with `readLSpec 13` — returning `"a"` and
leaving `b"b\n"`, and requires `writeL("a")` to hand `b"a\r"` to the
transport.  The code does neither: it cuts at `"\n"` and appends `"\n"`. -/
theorem terminator_param_counterexample :
    ¬ (readL ⟨none, [97, 13, 98, 10], 4096, false, [13]⟩ =
         readLSpec 13 ⟨none, [97, 13, 98, 10], 4096, false, [13]⟩ ∧
       (writeL ⟨none, [], 4096, false, [13]⟩ [97] false).dataWritten =
         some [97, 13]) := by
  decide

/-- One code point below 128 encodes to itself, so encoding a string with a
line-feed appended appends the line-feed byte. -/
theorem utf8Encode_append_lf (s : List Nat) :
    utf8Encode (s ++ [LF]) = utf8Encode s ++ [LF] := by
  simp [utf8Encode, utf8EncodeChar, LF]

/-- Claim C4 as amended: the terminator stored at construction is unused —
`readL` results do not depend on it and always cut at the first line-feed
byte, and `writeL` always hands `encode(s) ++ b"\n"` to the transport
(when the link is not disconnected), whatever the stored terminator. -/
theorem terminator_param_unused (buf : Buffer) (t s : List Nat) (ioFails : Bool) :
    ((readL { buf with terminator := t }).1 = (readL buf).1 ∧
     (readL { buf with terminator := t }).2.content = (readL buf).2.content) ∧
    (writeL { buf with terminator := t } s ioFails).dataWritten =
      (writeL buf s ioFails).dataWritten ∧
    (∀ pre rest, buf.content = pre ++ LF :: rest → LF ∉ pre →
      (readL buf).2.content = rest) ∧
    (buf.disconnected = false →
      (writeL buf s ioFails).dataWritten = some (utf8Encode s ++ [LF])) := by
  refine ⟨?_, ?_, ?_, ?_⟩
  · unfold readL
    cases h : findTermIdx LF buf.content with
    | none => simp [h]
    | some i => simp [h]
  · unfold writeL write
    cases hd : buf.disconnected <;> cases ioFails <;> simp [hd]
  · intro pre rest hc hpre
    rw [readL_eq_of_split buf pre rest hc hpre]
  · intro hd
    unfold writeL write
    rw [utf8Encode_append_lf]
    cases ioFails <;> simp [hd]

/-- Witness for C4's amended statement on concrete inputs: with stored
terminator `"\r"`, `readL` on `b"a\rb\n"` behaves exactly as with the
default terminator, cutting at the line-feed, and `writeL("a")` hands
`b"a\n"` to the transport. -/
theorem terminator_param_unused_witness :
    ((readL ⟨none, [97, 13, 98, 10], 4096, false, [13]⟩).1 =
       (readL ⟨none, [97, 13, 98, 10], 4096, false, [10]⟩).1 ∧
     (readL ⟨none, [97, 13, 98, 10], 4096, false, [13]⟩).2.content =
       (readL ⟨none, [97, 13, 98, 10], 4096, false, [10]⟩).2.content) ∧
    (readL ⟨none, [97, 13, 98, 10], 4096, false, [10]⟩).2.content = [] ∧
    (writeL ⟨none, [], 4096, false, [13]⟩ [97] false).dataWritten =
      some [97, 10] := by
  have h1 := (terminator_param_unused ⟨none, [97, 13, 98, 10], 4096, false, [10]⟩
    [13] [97] false).1
  have h2 := (terminator_param_unused ⟨none, [97, 13, 98, 10], 4096, false, [10]⟩
    [13] [97] false).2.2.1 [97, 13, 98] [] (by decide) (by decide)
  have h3 := (terminator_param_unused ⟨none, [], 4096, false, [13]⟩
    [13] [97] false).2.2.2 (by decide)
  exact ⟨h1, h2, by simpa using h3⟩

/-- Claim C6: on a disconnected link, `write` and `writeL` never invoke the
transport write primitive, never raise, warn, and leave the state
unchanged; on a connected link an I/O failure during the transport write is
caught and reported as a warning, never propagated. -/
theorem write_spec (buf : Buffer) (data s : List Nat) (ioFails : Bool) :
    (buf.disconnected = true →
      write buf data ioFails =
        { dataWritten := none, warned := true, raised := false, buf := buf } ∧
      writeL buf s ioFails =
        { dataWritten := none, warned := true, raised := false, buf := buf }) ∧
    (write buf data ioFails).raised = false ∧
    (writeL buf s ioFails).raised = false ∧
    (buf.disconnected = false → ioFails = true →
      (write buf data ioFails).warned = true ∧
      (write buf data ioFails).raised = false ∧
      (write buf data ioFails).buf = buf) := by
  refine ⟨?_, ?_, ?_, ?_⟩
  · intro hd
    constructor <;> simp [write, writeL, hd]
  · unfold write
    cases hd : buf.disconnected <;> cases ioFails <;> simp [hd]
  · unfold writeL write
    cases hd : buf.disconnected <;> cases ioFails <;> simp [hd]
  · intro hd hio
    simp [write, hd, hio]

/-- Witness for C6 on concrete inputs: a disconnected link's `write` and
`writeL` are warn-only no-ops, and a connected link's failing write warns
without raising and leaves the buffer unchanged. -/
theorem write_spec_witness :
    (write ⟨none, [], 4096, true, [10]⟩ [1] false =
       { dataWritten := none, warned := true, raised := false,
         buf := ⟨none, [], 4096, true, [10]⟩ } ∧
     writeL ⟨none, [], 4096, true, [10]⟩ [97] false =
       { dataWritten := none, warned := true, raised := false,
         buf := ⟨none, [], 4096, true, [10]⟩ }) ∧
    ((write ⟨none, [], 4096, false, [10]⟩ [1] true).warned = true ∧
     (write ⟨none, [], 4096, false, [10]⟩ [1] true).raised = false ∧
     (write ⟨none, [], 4096, false, [10]⟩ [1] true).buf =
       ⟨none, [], 4096, false, [10]⟩) :=
  ⟨(write_spec ⟨none, [], 4096, true, [10]⟩ [1] [97] false).1 (by decide),
   (write_spec ⟨none, [], 4096, false, [10]⟩ [1] [97] true).2.2.2
     (by decide) (by decide)⟩

/-- `enumFromIdx` preserves length. -/
theorem enumFromIdx_length (n : Nat) (l : List Device) :
    (enumFromIdx n l).length = l.length := by
  induction l generalizing n with
  | nil => rfl
  | cons d rest ih => simp [enumFromIdx, ih]

/-- Indices produced by `enumFromIdx n l` lie in `[n, n + l.length)`. -/
theorem mem_enumFromIdx_bounds (n i : Nat) (d : Device) (l : List Device)
    (h : (i, d) ∈ enumFromIdx n l) : n ≤ i ∧ i < n + l.length := by
  induction l generalizing n with
  | nil => simp [enumFromIdx] at h
  | cons e rest ih =>
    rw [enumFromIdx] at h
    rcases List.mem_cons.mp h with h1 | h2
    · have hi : i = n := congrArg Prod.fst h1
      subst hi
      simp
    · have hb := ih (n + 1) h2
      constructor
      · omega
      · simp
        omega

/-- Every action of `candActs i` acts on device `i`. -/
theorem candActs_idx (i : Nat) (c q : Option (List Nat)) :
    ∀ a ∈ candActs i c q, a.idx = i := by
  cases c with
  | none =>
    cases q with
    | none =>
      intro a ha
      simp [candActs] at ha
      subst ha
      rfl
    | some qq =>
      intro a ha
      simp [candActs] at ha
      rcases ha with rfl | rfl | rfl <;> rfl
  | some cc =>
    cases q with
    | none =>
      intro a ha
      simp [candActs] at ha
      rcases ha with rfl | rfl | rfl <;> rfl
    | some qq =>
      intro a ha
      simp [candActs] at ha
      rcases ha with rfl | rfl | rfl | rfl | rfl <;> rfl

/-- The open-with-timeout-2 action is always among a candidate's actions. -/
theorem openDev_mem_candActs (i : Nat) (c q : Option (List Nat)) :
    Action.openDev i 2 ∈ candActs i c q := by
  simp [candActs]

/-- When an init command is given it is written to the candidate and one
line of response is read (and discarded). -/
theorem cmd_mem_candActs (i : Nat) (c : List Nat) (q : Option (List Nat)) :
    Action.writeDev i c ∈ candActs i (some c) q ∧
    Action.readlineDev i ∈ candActs i (some c) q := by
  cases q <;> simp [candActs]

/-- Unfolding equation of `probeCandidates` on a non-empty candidate
list. -/
theorem probeCandidates_cons (command question answer : Option (List Nat))
    (j : Nat) (d : Device) (rest : List (Nat × Device)) :
    probeCandidates command question answer ((j, d) :: rest) =
      (if d.openOk = true then
        match question with
        | some _ =>
          if some d.probeResponse = answer then
            Except.ok (j, candActs j command question)
          else
            match probeCandidates command question answer rest with
            | Except.ok (k, acts) =>
              Except.ok (k, candActs j command question ++ acts)
            | Except.error e => Except.error e
        | none => Except.ok (j, candActs j command question)
      else Except.error ()) := rfl

/-- A successful probe loop selected a listed candidate that opened, whose
probe response matched the expected answer when a question was given, and
whose actions form the tail of the action log. -/
theorem probeCandidates_ok_mem (command question answer : Option (List Nat)) :
    ∀ (l : List (Nat × Device)) (i : Nat) (acts : List Action),
      probeCandidates command question answer l = Except.ok (i, acts) →
      ∃ d pre, (i, d) ∈ l ∧ d.openOk = true ∧
        acts = pre ++ candActs i command question ∧
        (∀ qq, question = some qq → some d.probeResponse = answer) := by
  intro l
  induction l with
  | nil =>
    intro i acts h
    exact absurd h (by simp [probeCandidates])
  | cons p rest ih =>
    obtain ⟨j, d⟩ := p
    intro i acts h
    rw [probeCandidates_cons] at h
    by_cases ho : d.openOk = true
    · rw [if_pos ho] at h
      cases hq : question with
      | none =>
        subst hq
        simp at h
        obtain ⟨rfl, rfl⟩ := h
        exact ⟨d, [], by simp, ho, by simp, fun qq hqq => Option.noConfusion hqq⟩
      | some qq =>
        subst hq
        by_cases hm : some d.probeResponse = answer
        · rw [if_pos hm] at h
          simp at h
          obtain ⟨rfl, rfl⟩ := h
          exact ⟨d, [], by simp, ho, by simp, fun _ _ => hm⟩
        · rw [if_neg hm] at h
          cases hr : probeCandidates command (some qq) answer rest with
          | ok pr =>
            obtain ⟨i2, acts2⟩ := pr
            rw [hr] at h
            simp at h
            obtain ⟨rfl, rfl⟩ := h
            obtain ⟨d2, pre2, hmem, hok2, hacts2, hans2⟩ := ih i2 acts2 hr
            exact ⟨d2, candActs j command (some qq) ++ pre2,
              List.mem_cons_of_mem _ hmem, hok2,
              by rw [hacts2, List.append_assoc], hans2⟩
          | error e =>
            rw [hr] at h
            cases h
    · rw [if_neg ho] at h
      cases h

/-- All actions of a successful probe loop act on devices whose index is
at least the smallest candidate index. -/
theorem probeCandidates_acts_ge (command question answer : Option (List Nat)) (n : Nat) :
    ∀ (l : List (Nat × Device)) (i : Nat) (acts : List Action),
      (∀ p ∈ l, n ≤ p.1) →
      probeCandidates command question answer l = Except.ok (i, acts) →
      ∀ a ∈ acts, n ≤ a.idx := by
  intro l
  induction l with
  | nil =>
    intro i acts _ h
    exact absurd h (by simp [probeCandidates])
  | cons p rest ih =>
    obtain ⟨j, d⟩ := p
    intro i acts hidx h
    have hj : n ≤ j := hidx (j, d) (by simp)
    rw [probeCandidates_cons] at h
    by_cases ho : d.openOk = true
    · rw [if_pos ho] at h
      cases hq : question with
      | none =>
        subst hq
        simp at h
        obtain ⟨rfl, rfl⟩ := h
        intro a ha
        rw [candActs_idx _ command none a ha]
        exact hj
      | some qq =>
        subst hq
        by_cases hm : some d.probeResponse = answer
        · rw [if_pos hm] at h
          simp at h
          obtain ⟨rfl, rfl⟩ := h
          intro a ha
          rw [candActs_idx _ command (some qq) a ha]
          exact hj
        · rw [if_neg hm] at h
          cases hr : probeCandidates command (some qq) answer rest with
          | ok pr =>
            obtain ⟨i2, acts2⟩ := pr
            rw [hr] at h
            simp at h
            obtain ⟨rfl, rfl⟩ := h
            intro a ha
            rcases List.mem_append.mp ha with ha1 | ha2
            · rw [candActs_idx j command (some qq) a ha1]
              exact hj
            · exact ih i2 acts2 (fun p hp => hidx p (List.mem_cons_of_mem _ hp)) hr a ha2
          | error e =>
            rw [hr] at h
            cases h
    · rw [if_neg ho] at h
      cases h

/-- The probe loop selects the first candidate that opens and matches: if
every earlier candidate opens but does not match, the matching candidate is
the one selected. -/
theorem probeCandidates_first_match (command : Option (List Nat)) (qq : List Nat)
    (answer : Option (List Nat)) :
    ∀ (l1 : List (Nat × Device)) (i : Nat) (d : Device) (l2 : List (Nat × Device)),
      (∀ p ∈ l1, (p.2 : Device).openOk = true ∧
        some (p.2 : Device).probeResponse ≠ answer) →
      d.openOk = true → some d.probeResponse = answer →
      ∃ acts, probeCandidates command (some qq) answer (l1 ++ (i, d) :: l2) =
        Except.ok (i, acts) := by
  intro l1
  induction l1 with
  | nil =>
    intro i d l2 _ hok hm
    exact ⟨candActs i command (some qq), by simp [probeCandidates, hok, hm]⟩
  | cons p l1t ih =>
    obtain ⟨j, e⟩ := p
    intro i d l2 hall hok hm
    obtain ⟨hoke, hne⟩ := hall (j, e) (by simp)
    have hoke2 : e.openOk = true := hoke
    have hne2 : some e.probeResponse ≠ answer := hne
    obtain ⟨acts, hacts⟩ := ih i d l2 (fun p hp => hall p (List.mem_cons_of_mem _ hp)) hok hm
    exact ⟨candActs j command (some qq) ++ acts,
      by simp [probeCandidates_cons, hoke2, hne2, hacts]⟩

/-- When every candidate that opens fails the probe comparison, the loop
ends with `correctPort` false and the call fails. -/
theorem probeCandidates_error_no_match (command : Option (List Nat)) (qq : List Nat)
    (answer : Option (List Nat)) :
    ∀ l : List (Nat × Device),
      (∀ p ∈ l, (p.2 : Device).openOk = true →
        some (p.2 : Device).probeResponse ≠ answer) →
      probeCandidates command (some qq) answer l = Except.error () := by
  intro l
  induction l with
  | nil => intro _; rfl
  | cons p rest ih =>
    obtain ⟨j, e⟩ := p
    intro hall
    by_cases ho : e.openOk = true
    · have hne : some e.probeResponse ≠ answer := hall (j, e) (by simp) ho
      simp [probeCandidates_cons, ho, hne,
        ih (fun p hp => hall p (List.mem_cons_of_mem _ hp))]
    · simp [probeCandidates_cons, ho]

/-- An open failure on the first candidate that is actually reached aborts
the whole loop with a failure. -/
theorem probeCandidates_error_open_fail (command : Option (List Nat)) (qq : List Nat)
    (answer : Option (List Nat)) :
    ∀ (l1 : List (Nat × Device)) (i : Nat) (d : Device) (l2 : List (Nat × Device)),
      (∀ p ∈ l1, (p.2 : Device).openOk = true ∧
        some (p.2 : Device).probeResponse ≠ answer) →
      d.openOk = false →
      probeCandidates command (some qq) answer (l1 ++ (i, d) :: l2) =
        Except.error () := by
  intro l1
  induction l1 with
  | nil =>
    intro i d l2 _ hd
    simp [probeCandidates, hd]
  | cons p l1t ih =>
    obtain ⟨j, e⟩ := p
    intro i d l2 hall hd
    obtain ⟨hoke, hne⟩ := hall (j, e) (by simp)
    have hoke2 : e.openOk = true := hoke
    have hne2 : some e.probeResponse ≠ answer := hne
    simp [probeCandidates_cons, hoke2, hne2,
      ih i d l2 (fun p hp => hall p (List.mem_cons_of_mem _ hp)) hd]

/-- Without a probe question the first candidate decides: accepted if its
open succeeds, failure of the whole call otherwise. -/
theorem probeCandidates_none_cons (command answer : Option (List Nat))
    (j : Nat) (d : Device) (rest : List (Nat × Device)) :
    probeCandidates command none answer ((j, d) :: rest) =
      (if d.openOk = true then Except.ok (j, candActs j command none)
       else Except.error ()) := by
  by_cases ho : d.openOk = true <;> simp [probeCandidates, ho]

/-- A decomposition of the candidate list implies at least two devices. -/
theorem two_devices_of_enum_split (devs : List Device) (l1 l2 : List (Nat × Device))
    (i : Nat) (d : Device)
    (h : enumFromIdx 1 (devs.drop 1) = l1 ++ (i, d) :: l2) : 1 < devs.length := by
  have hlen := congrArg List.length h
  rw [enumFromIdx_length] at hlen
  simp at hlen
  omega

/-- Claim C7: `serPort` with `deviceName = "Auto"` fails when fewer than 2
devices are listed; otherwise it iterates candidates from index 1 (index 0
is skipped: every action touches an index ≥ 1), opening each with the fixed
timeout 2, writing the init command (and reading one line) when given; the
selected candidate is the first one that opens and whose probe response
equals the expected answer — or, without a probe question, the first
candidate when it opens; no match, and any open failure reached during
iteration, yield the failure; on success the final command is written and
one response line read last. -/
theorem serPortAuto_spec (devs : List Device)
    (command question answer final : Option (List Nat)) :
    (devs.length < 2 →
      serPortAuto devs command question answer final = Except.error ()) ∧
    (∀ i acts,
      serPortAuto devs command question answer final = Except.ok (i, acts) →
      (1 ≤ i ∧ i < devs.length) ∧
      Action.openDev i 2 ∈ acts ∧
      (∀ c, command = some c →
        Action.writeDev i c ∈ acts ∧ Action.readlineDev i ∈ acts) ∧
      (∀ a ∈ acts, 1 ≤ a.idx) ∧
      (∀ qq, question = some qq →
        ∃ d, (i, d) ∈ enumFromIdx 1 (devs.drop 1) ∧ d.openOk = true ∧
          some d.probeResponse = answer) ∧
      (∀ f, final = some f →
        ∃ pre, acts = pre ++ [Action.writeDev i f, Action.readlineDev i])) ∧
    (∀ d0 d1 rest, devs = d0 :: d1 :: rest → question = none →
      d1.openOk = true →
      ∃ acts, serPortAuto devs command question answer final =
        Except.ok (1, acts)) ∧
    (∀ qq i d l1 l2, question = some qq →
      enumFromIdx 1 (devs.drop 1) = l1 ++ (i, d) :: l2 →
      (∀ p ∈ l1, (p.2 : Device).openOk = true ∧
        some (p.2 : Device).probeResponse ≠ answer) →
      d.openOk = true → some d.probeResponse = answer →
      ∃ acts, serPortAuto devs command question answer final =
        Except.ok (i, acts)) ∧
    (∀ qq, question = some qq →
      (∀ p ∈ enumFromIdx 1 (devs.drop 1), (p.2 : Device).openOk = true →
        some (p.2 : Device).probeResponse ≠ answer) →
      serPortAuto devs command question answer final = Except.error ()) ∧
    (∀ qq i d l1 l2, question = some qq →
      enumFromIdx 1 (devs.drop 1) = l1 ++ (i, d) :: l2 →
      (∀ p ∈ l1, (p.2 : Device).openOk = true ∧
        some (p.2 : Device).probeResponse ≠ answer) →
      d.openOk = false →
      serPortAuto devs command question answer final = Except.error ()) := by
  refine ⟨?_, ?_, ?_, ?_, ?_, ?_⟩
  · intro h
    unfold serPortAuto
    rw [if_neg (by omega : ¬ 1 < devs.length)]
  · intro i acts h
    by_cases hlen : 1 < devs.length
    · unfold serPortAuto at h
      rw [if_pos hlen] at h
      cases hr : probeCandidates command question answer (enumFromIdx 1 (devs.drop 1)) with
      | error e =>
        rw [hr] at h
        simp at h
      | ok pr =>
        obtain ⟨i0, acts0⟩ := pr
        rw [hr] at h
        simp at h
        obtain ⟨rfl, rfl⟩ := h
        obtain ⟨d, pre, hmem, hok, hacts0, hans⟩ :=
          probeCandidates_ok_mem command question answer _ i0 acts0 hr
        have hb := mem_enumFromIdx_bounds 1 i0 d (devs.drop 1) hmem
        have hdl : (devs.drop 1).length = devs.length - 1 := by simp
        refine ⟨⟨hb.1, by omega⟩, ?_, ?_, ?_, ?_, ?_⟩
        · rw [hacts0]
          exact List.mem_append_left _
            (List.mem_append_right _ (openDev_mem_candActs i0 command question))
        · intro c hc
          subst hc
          have hcm := cmd_mem_candActs i0 c question
          rw [hacts0]
          exact ⟨List.mem_append_left _ (List.mem_append_right _ hcm.1),
            List.mem_append_left _ (List.mem_append_right _ hcm.2)⟩
        · intro a ha
          rcases List.mem_append.mp ha with ha1 | ha2
          · refine probeCandidates_acts_ge command question answer 1 _ i0 acts0
              ?_ hr a ha1
            intro p hp
            exact (mem_enumFromIdx_bounds 1 p.1 p.2 (devs.drop 1)
              (by simpa using hp)).1
          · cases hf : final with
            | none =>
              subst hf
              simp at ha2
            | some f =>
              subst hf
              simp at ha2
              rcases ha2 with rfl | rfl
              · exact hb.1
              · exact hb.1
        · intro qq hq
          exact ⟨d, hmem, hok, hans qq hq⟩
        · intro f hf
          subst hf
          exact ⟨acts0, rfl⟩
    · unfold serPortAuto at h
      rw [if_neg hlen] at h
      simp at h
  · intro d0 d1 rest hdevs hq hok
    subst hdevs
    subst hq
    have hlen : 1 < (d0 :: d1 :: rest).length := by simp
    refine ⟨candActs 1 command none ++
      (match final with
       | some f => [Action.writeDev 1 f, Action.readlineDev 1]
       | none => []), ?_⟩
    unfold serPortAuto
    rw [if_pos hlen]
    have he : enumFromIdx 1 ((d0 :: d1 :: rest).drop 1) =
        (1, d1) :: enumFromIdx 2 rest := rfl
    rw [he, probeCandidates_none_cons, if_pos hok]
  · intro qq i d l1 l2 hq henum hall hok hm
    subst hq
    have hlen := two_devices_of_enum_split devs l1 l2 i d henum
    obtain ⟨acts, hacts⟩ :=
      probeCandidates_first_match command qq answer l1 i d l2 hall hok hm
    refine ⟨acts ++
      (match final with
       | some f => [Action.writeDev i f, Action.readlineDev i]
       | none => []), ?_⟩
    unfold serPortAuto
    rw [if_pos hlen, henum, hacts]
  · intro qq hq hall
    subst hq
    by_cases hlen : 1 < devs.length
    · unfold serPortAuto
      rw [if_pos hlen, probeCandidates_error_no_match command qq answer _ hall]
    · unfold serPortAuto
      rw [if_neg hlen]
  · intro qq i d l1 l2 hq henum hall hd
    subst hq
    have hlen := two_devices_of_enum_split devs l1 l2 i d henum
    unfold serPortAuto
    rw [if_pos hlen, henum,
      probeCandidates_error_open_fail command qq answer l1 i d l2 hall hd]

/-- Witness for C7 on concrete device lists: one device fails; two devices
without a probe select index 1 with the init and final commands written and
answered; a first-match probe selects index 2 past a non-matching index 1;
a never-matching probe fails; an open failure at index 1 fails. -/
theorem serPortAuto_spec_witness :
    serPortAuto [⟨true, [], [80]⟩] none none none none = Except.error () ∧
    Action.openDev 1 2 ∈ [Action.openDev 1 2, Action.writeDev 1 [33],
      Action.readlineDev 1, Action.writeDev 1 [70], Action.readlineDev 1] ∧
    (∃ pre, [Action.openDev 1 2, Action.writeDev 1 [33], Action.readlineDev 1,
        Action.writeDev 1 [70], Action.readlineDev 1] =
      pre ++ [Action.writeDev 1 [70], Action.readlineDev 1]) ∧
    (∃ acts, serPortAuto [⟨true, [], [78]⟩, ⟨true, [], [80]⟩]
        (some [33]) none none (some [70]) = Except.ok (1, acts)) ∧
    (∃ acts, serPortAuto [⟨true, [], []⟩, ⟨true, [], [78]⟩, ⟨true, [], [80]⟩]
        none (some [63]) (some [80]) none = Except.ok (2, acts)) ∧
    serPortAuto [⟨true, [], []⟩, ⟨true, [], [78]⟩, ⟨true, [], [78]⟩]
      none (some [63]) (some [80]) none = Except.error () ∧
    serPortAuto [⟨true, [], []⟩, ⟨false, [], []⟩, ⟨true, [], [80]⟩]
      none (some [63]) (some [80]) none = Except.error () := by
  refine ⟨?_, ?_, ?_, ?_, ?_, ?_, ?_⟩
  · exact (serPortAuto_spec [⟨true, [], [80]⟩] none none none none).1 (by decide)
  · exact ((serPortAuto_spec [⟨true, [], [78]⟩, ⟨true, [], [80]⟩]
      (some [33]) none none (some [70])).2.1 1
      [Action.openDev 1 2, Action.writeDev 1 [33], Action.readlineDev 1,
        Action.writeDev 1 [70], Action.readlineDev 1] (by decide)).2.1
  · exact ((serPortAuto_spec [⟨true, [], [78]⟩, ⟨true, [], [80]⟩]
      (some [33]) none none (some [70])).2.1 1
      [Action.openDev 1 2, Action.writeDev 1 [33], Action.readlineDev 1,
        Action.writeDev 1 [70], Action.readlineDev 1]
      (by decide)).2.2.2.2.2 [70] rfl
  · exact (serPortAuto_spec [⟨true, [], [78]⟩, ⟨true, [], [80]⟩]
      (some [33]) none none (some [70])).2.2.1
      ⟨true, [], [78]⟩ ⟨true, [], [80]⟩ [] rfl rfl (by decide)
  · exact (serPortAuto_spec [⟨true, [], []⟩, ⟨true, [], [78]⟩, ⟨true, [], [80]⟩]
      none (some [63]) (some [80]) none).2.2.2.1 [63] 2 ⟨true, [], [80]⟩
      [(1, ⟨true, [], [78]⟩)] [] rfl (by decide) (by decide) (by decide) (by decide)
  · exact (serPortAuto_spec [⟨true, [], []⟩, ⟨true, [], [78]⟩, ⟨true, [], [78]⟩]
      none (some [63]) (some [80]) none).2.2.2.2.1 [63] rfl (by decide)
  · exact (serPortAuto_spec [⟨true, [], []⟩, ⟨false, [], []⟩, ⟨true, [], [80]⟩]
      none (some [63]) (some [80]) none).2.2.2.2.2 [63] 1 ⟨false, [], []⟩
      [] [(2, ⟨true, [], [80]⟩)] rfl (by decide) (by decide) (by decide)

/-- Claim C8, evaluated at its failing input: a reconnect attempt that
runs while the host lists two devices — the very situation in which the
claim requires the index-1 fallback to be opened, the connection rebound,
the link state set to connected and a new reader started — instead raises
an uncaught `NameError` (line 813's bare `Serial` is an unbound name), so
`reopen` returns no outcome at all: the port is never rebound and no
reader is ever started.  The same exception propagates out of
`connection_lost`, aborting it before `disconnected = True` is assigned.
Only with fewer than two devices does `connection_lost` return normally,
setting the flag and rescheduling the attempt — which in turn can never
succeed. -/
theorem connection_lost_reopen_namerror :
    reopen [⟨true, [], []⟩, ⟨true, [], []⟩] ⟨some 9, [], 4096, true, [10]⟩ =
      Except.error () ∧
    connection_lost [⟨true, [], []⟩, ⟨true, [], []⟩]
      ⟨some 9, [], 4096, false, [10]⟩ = Except.error () ∧
    connection_lost [⟨true, [], []⟩] ⟨some 9, [], 4096, false, [10]⟩ =
      Except.ok { buf := ⟨some 9, [], 4096, true, [10]⟩,
                  readerStarted := false, rescheduled := true } := by
  decide

end LFLib
